import Mathlib

/-!
Verification development for the photo-wall server in src/server/index.js.

The server keeps an in-memory list of photo records (the Ledger), bounds its
size by trimming the tail, counts in-flight uploads, debounces snapshot
writes, and broadcasts created/deleted events over a socket.  The shallow
embedding below translates the relevant JavaScript functions into Lean
definitions: JSON-shaped values become the type JPrim, request handlers
become pure functions from a server state to a new state plus the lists of
broadcast events and file-system operations they perform, and the debounce
timer becomes an explicit deadline in the save state.
-/

/-- Model of a primitive JSON value as seen by the handlers.  The
constructor otherTruthy stands for any non-primitive truthy value (an
object or a nested array); the handlers only ever test such values for
truthiness and for being a string, so this collapse is faithful. -/
inductive JPrim where
  | undefVal
  | null
  | bool (b : Bool)
  | num (q : ℚ)
  | str (s : List Char)
  | otherTruthy
deriving DecidableEq, Repr

/-- The images field of an incoming payload: either not an array, or an
array of primitive values (data-URI strings in the intended case). -/
inductive JImages where
  | notArr (v : JPrim)
  | arr (xs : List JPrim)
deriving DecidableEq, Repr

/-- JavaScript truthiness for the modelled values. -/
def truthy : JPrim → Bool
  | .undefVal => false
  | .null => false
  | .bool b => b
  | .num q => decide (q ≠ 0)
  | .str s => decide (s ≠ [])
  | .otherTruthy => true

/-- typeof v === number. -/
def isNum : JPrim → Bool
  | .num _ => true
  | _ => false

/-- A raw JSON object in the shape the handlers read: the body of a POST
request or one entry of the photos.json snapshot.  Absent fields are
JPrim.undefVal. -/
structure RawEntry where
  id : JPrim
  caption : JPrim
  timestamp : JPrim
  rotation : JPrim
  author : JPrim
  storageFile : JPrim
  images : JImages
  imageUrl : JPrim
deriving DecidableEq, Repr

/-- A canonical stored photo record (the storedPhoto object built by the
POST handler and by normalizePhotoRecord). -/
structure PhotoRecord where
  id : List Char
  caption : List Char
  timestamp : ℚ
  rotation : ℚ
  author : JPrim
  imageUrl : Option (List Char)
  storageFile : Option (List Char)
deriving DecidableEq, Repr

/-- The sanitized public view produced by sanitizePhoto: no storageFile
field exists in this type, and images is an explicit list (always set to
[] by sanitizePhoto). -/
structure PublicPhotoView where
  id : List Char
  caption : List Char
  timestamp : ℚ
  rotation : ℚ
  author : JPrim
  imageUrl : Option (List Char)
  images : List JPrim
deriving DecidableEq, Repr

/-- Configuration surface of the server (the environment-derived
constants of src/server/index.js). -/
structure Config where
  maxPhotoHistory : Nat
  maxConcurrentUploads : Nat
  maxImageBytes : Nat
  saveDebounceMs : Nat
  enableDiskCache : Bool
  uploadUrlBase : List Char
deriving DecidableEq, Repr

/-- buildImageUrl: path.posix.join(UPLOAD_URL_BASE, fileName).  The env
normalization (lines 19-23) guarantees the base starts with a slash and
does not end with one unless it is exactly the root, so the join is plain
concatenation with a slash separator. -/
def buildImageUrl (cfg : Config) (name : List Char) : List Char :=
  (if cfg.uploadUrlBase = ['/'] then [] else cfg.uploadUrlBase) ++ '/' :: name

/-- sanitizePhoto (lines 56-64): keep the public fields, set images to
the empty list, drop storageFile. -/
def sanitizePhoto (p : PhotoRecord) : PublicPhotoView :=
  { id := p.id
  , caption := p.caption
  , timestamp := p.timestamp
  , rotation := p.rotation
  , author := p.author
  , imageUrl := p.imageUrl
  , images := [] }

/-- File-system operations performed by the handlers.  readSnapshot and
the writes counter of SaveSt are the only snapshot accesses; image files
are written and unlinked by name inside the upload directory. -/
inductive FsEvent where
  | readSnapshot
  | writeImage (name : List Char) (bytes : Nat)
  | unlinkImage (name : List Char)
deriving DecidableEq, Repr

/-- Broadcast (socket) events emitted by the handlers. -/
inductive BEvent where
  | new_photo (v : PublicPhotoView)
  | delete_photo (id : List Char)
deriving DecidableEq, Repr

/-- everything after the first comma, as produced by splitting the string
on commas and taking the tail of the first chunk. -/
def afterComma : List Char → List Char
  | [] => []
  | c :: cs => if c = ',' then cs else afterComma cs

/-- The second comma-separated chunk of a string: what the destructuring
const left-bracket comma base64 right-bracket = dataUri.split(comma) binds
to base64 (empty when there is no comma). -/
def secondChunk (s : List Char) : List Char :=
  (afterComma s).takeWhile (fun c => decide (c ≠ ','))

/-- approxBytesFromDataUri (lines 66-69): Math.ceil(base64.length * 3 / 4)
where base64 is the second comma-separated chunk. -/
def approxBytesFromDataUri (s : List Char) : Nat :=
  (3 * (secondChunk s).length + 3) / 4

/-- Characters of the base64 alphabet (padding aside). -/
def isB64 (c : Char) : Bool :=
  ('A' ≤ c && c ≤ 'Z') || ('a' ≤ c && c ≤ 'z') || ('0' ≤ c && c ≤ '9') || c = '+' || c = '/'

/-- Characters the JavaScript dot atom does not match. -/
def isNL (c : Char) : Bool :=
  c = '\n' || c = '\r' || c = Char.ofNat 0x2028 || c = Char.ofNat 0x2029

/-- The literal separating the media type from the payload in a base64
data URI (the characters of the string semicolon-base64-comma). -/
def b64marker : List Char := [';', 'b', 'a', 's', 'e', '6', '4', ',']

/-- Split a string at the last occurrence of b64marker that leaves a
nonempty payload after it, returning the part before and the part after.
This is how the greedy group in the regular expression of
decodeBase64Image (line 72) carves the string up. -/
def splitLastMarker : List Char → Option (List Char × List Char)
  | [] => none
  | c :: cs =>
    match splitLastMarker cs with
    | some (m, b) => some (c :: m, b)
    | none =>
      if b64marker.isPrefixOf (c :: cs) && decide ((c :: cs).drop b64marker.length ≠ [])
      then some ([], (c :: cs).drop b64marker.length)
      else none

/-- Number of bytes Node obtains from decoding a base64 string, ignoring
characters outside the alphabet: three bytes for every four alphabet
characters, rounded down. -/
def b64DecodedLen (b : List Char) : Nat :=
  3 * (b.countP isB64) / 4

/-- decodeBase64Image (lines 71-79): match the data URI against the
anchored pattern data:(group);base64,(group) with greedy groups, and
return the media type together with the byte length of the decoded
buffer (the buffer contents never matter to the properties below).  The
dot atom matches no newline-class character, so a string containing one
never matches. -/
def decodeBase64Image (uri : List Char) : Option (List Char × Nat) :=
  if ("data:".toList.isPrefixOf uri) && uri.all (fun c => ! isNL c) then
    match splitLastMarker (uri.drop 5) with
    | some (m, b) => if m ≠ [] then some (m, b64DecodedLen b) else none
    | none => none
  else none

/-- Extension choice shared by the POST handler (line 269) and the
normalizer (line 112). -/
def imageExt (mime : List Char) : List Char :=
  if mime = "image/png".toList then "png".toList else "jpg".toList

/-- typeof v === string ? v : d. -/
def jStrOrElse (v : JPrim) (d : List Char) : List Char :=
  match v with
  | .str s => s
  | _ => d

/-- typeof v === number ? v : d. -/
def jNumOrElse (v : JPrim) (d : ℚ) : ℚ :=
  match v with
  | .num q => q
  | _ => d

/-- Validation errors returned by validatePhotoPayload, plus the
malformed-image rejection issued later by the POST handler. -/
inductive VErr where
  | invalidPayload
  | unsupportedImageFormat
  | exceedsLimit
  | malformedImage
deriving DecidableEq, Repr

/-- The first element of the images array of a payload, undefined when
the field is not an array or the array is empty. -/
def primaryOf (p : RawEntry) : JPrim :=
  match p.images with
  | .arr xs => xs.headD .undefVal
  | .notArr _ => .undefVal

/-- validatePhotoPayload (lines 219-237). -/
def validatePhotoPayload (cfg : Config) (body : Option RawEntry) : Option VErr :=
  match body with
  | none => some .invalidPayload
  | some p =>
    match p.id with
    | .str _ =>
      let primary := primaryOf p
      if truthy primary then
        match primary with
        | .str uri =>
          if ("data:image".toList.isPrefixOf uri) then
            if approxBytesFromDataUri uri > cfg.maxImageBytes then some .exceedsLimit
            else none
          else some .unsupportedImageFormat
        | _ => some .unsupportedImageFormat
      else none
    | _ => some .invalidPayload

/-- trimPhotoHistory (lines 95-100): keep the first maxPhotoHistory
records, unlink the backing file of every removed record (a record
without a storage file produces no unlink). -/
def trimPhotoHistory (cfg : Config) (ps : List PhotoRecord) : List PhotoRecord × List FsEvent :=
  if ps.length ≤ cfg.maxPhotoHistory then (ps, [])
  else
    (ps.take cfg.maxPhotoHistory,
     ((ps.drop cfg.maxPhotoHistory).filterMap (fun p => p.storageFile)).map FsEvent.unlinkImage)

/-- normalizePhotoRecord (lines 102-132).  The parameter now stands for
Date.now(), wok for whether the migration file write succeeds (on failure
the record degrades to caption-only).  A truthy non-string storageFile or
inline image is not representable as a file name; the model treats those
as absent (the source would throw on them, and no property below depends
on that corner). -/
def normalizePhotoRecord (cfg : Config) (now : ℚ) (wok : Bool) (entry : Option RawEntry) :
    Option PhotoRecord × List FsEvent :=
  match entry with
  | none => (none, [])
  | some e =>
    match e.id with
    | .str pid =>
      let sf0 : Option (List Char) :=
        match e.storageFile with
        | .str s => if s = [] then none else some s
        | _ => none
      let step : Option (List Char) × List FsEvent :=
        if sf0 = none then
          match e.images with
          | .arr xs =>
            let first := xs.headD .undefVal
            if truthy first then
              match first with
              | .str uri =>
                match decodeBase64Image uri with
                | none => (none, [])
                | some (mime, blen) =>
                  let nm := pid ++ '.' :: imageExt mime
                  if wok then (some nm, [FsEvent.writeImage nm blen]) else (none, [])
              | _ => (none, [])
            else (none, [])
          | .notArr _ => (none, [])
        else (sf0, [])
      ( some
        { id := pid
        , caption := jStrOrElse e.caption []
        , timestamp := jNumOrElse e.timestamp now
        , rotation := jNumOrElse e.rotation 0
        , author := e.author
        , imageUrl := step.1.map (buildImageUrl cfg)
        , storageFile := step.1 }
      , step.2)
    | _ => (none, [])

/-- One iteration of the load loop (lines 156-161): normalize the entry
and push the result when it is non-null, accumulating migration writes. -/
def loadStep (cfg : Config) (now : ℚ) (wok : Bool)
    (acc : List PhotoRecord × List FsEvent) (e : Option RawEntry) :
    List PhotoRecord × List FsEvent :=
  ( acc.1 ++ (match (normalizePhotoRecord cfg now wok e).1 with
              | some x => [x]
              | none => [])
  , acc.2 ++ (normalizePhotoRecord cfg now wok e).2)

/-- loadPhotos (lines 144-169).  disk is none when the snapshot file is
absent or unparsable (the catch path), otherwise the parsed array of
entries (a null array element is the none entry). -/
def loadPhotos (cfg : Config) (now : ℚ) (wok : Bool)
    (disk : Option (List (Option RawEntry))) : List PhotoRecord × List FsEvent :=
  if !cfg.enableDiskCache then ([], [])
  else
    match disk with
    | none => ([], [FsEvent.readSnapshot])
    | some entries =>
      let acc := entries.foldl (loadStep cfg now wok) ([], [])
      let tr := trimPhotoHistory cfg acc.1
      (tr.1, FsEvent.readSnapshot :: (acc.2 ++ tr.2))

/-- JSON.stringify of a stored record followed by JSON.parse at load
time: string and numeric fields survive unchanged, a null storageFile
stays null, an undefined imageUrl is dropped (stays undefined), and the
record has no images field. -/
def recordToRaw (r : PhotoRecord) : RawEntry :=
  { id := .str r.id
  , caption := .str r.caption
  , timestamp := .num r.timestamp
  , rotation := .num r.rotation
  , author := r.author
  , storageFile := match r.storageFile with | some s => .str s | none => .null
  , images := .notArr .undefVal
  , imageUrl := match r.imageUrl with | some u => .str u | none => .undefVal }

/-- savePhotosToDisk serializes the whole ledger (line 175); reloading
parses it back into this entry list. -/
def savePhotosSnapshot (ps : List PhotoRecord) : List (Option RawEntry) :=
  ps.map (fun r => some (recordToRaw r))

/-- The debounced-persistence state: the savePending flag, the saveTimer
variable (carrying the deadline at which the scheduled callback fires),
the number of outstanding scheduled callbacks in the runtime, the current
time, and the number of snapshot writes performed so far. -/
structure SaveSt where
  savePending : Bool
  saveTimer : Option Nat
  timerCount : Nat
  now : Nat
  writes : Nat
deriving DecidableEq, Repr

/-- The save state at process start. -/
def saveInit : SaveSt :=
  { savePending := false, saveTimer := none, timerCount := 0, now := 0, writes := 0 }

/-- scheduleSave (lines 181-192): no-op when persistence is disabled;
otherwise mark a save pending and start a timer only when none is
outstanding. -/
def scheduleSave (cfg : Config) (st : SaveSt) : SaveSt :=
  if !cfg.enableDiskCache then st
  else
    let st1 := { st with savePending := true }
    match st1.saveTimer with
    | some _ => st1
    | none =>
      { st1 with saveTimer := some (st1.now + cfg.saveDebounceMs)
               , timerCount := st1.timerCount + 1 }

/-- Let d milliseconds of event-loop time pass: if the outstanding timer
deadline is reached its callback runs (lines 186-191): it clears the
timer variable and, when a save is still pending, clears the flag and
performs one snapshot write (savePhotosToDisk itself returns without
writing when persistence is disabled, line 173). -/
def advanceTime (cfg : Config) (d : Nat) (st : SaveSt) : SaveSt :=
  match st.saveTimer with
  | some dl =>
    if dl ≤ st.now + d then
      if st.savePending then
        { st with now := st.now + d, saveTimer := none, timerCount := st.timerCount - 1
                , savePending := false
                , writes := st.writes + (if cfg.enableDiskCache then 1 else 0) }
      else { st with now := st.now + d, saveTimer := none, timerCount := st.timerCount - 1 }
    else { st with now := st.now + d }
  | none => { st with now := st.now + d }

/-- The whole mutable server state: the Ledger, the in-flight upload
counter and the persistence state. -/
structure ServerState where
  photos : List PhotoRecord
  activeUploads : Nat
  save : SaveSt
deriving DecidableEq, Repr

/-- Outcome of a POST /api/photos request. -/
inductive SResult where
  | busy
  | badRequest (e : VErr)
  | created (v : PublicPhotoView)
  | internalError
deriving DecidableEq, Repr

/-- Intermediate result of the try block of the POST handler: response,
ledger after the block, save state, broadcast events, file events, and
the storageFileName variable as left by the block (for the finally
cleanup). -/
structure TryOut where
  res : SResult
  ps : List PhotoRecord
  sv : SaveSt
  bev : List BEvent
  fsev : List FsEvent
  sfn : Option (List Char)
deriving DecidableEq, Repr

/-- The string content of the id field (only consulted after validation
has established that the field is a string). -/
def idStr (p : RawEntry) : List Char :=
  match p.id with
  | .str i => i
  | _ => []

/-- The storedPhoto object of lines 274-282; rho stands for the
Math.random() sample used for the default rotation. -/
def mkStored (cfg : Config) (p : RawEntry) (pid : List Char) (now rho : ℚ)
    (nameO : Option (List Char)) : PhotoRecord :=
  { id := pid
  , caption := jStrOrElse p.caption []
  , timestamp := jNumOrElse p.timestamp now
  , rotation := jNumOrElse p.rotation (rho * 6 - 3)
  , author := p.author
  , imageUrl := nameO.map (buildImageUrl cfg)
  , storageFile := nameO }

/-- The tail of the successful POST path (lines 274-292): build the
record, prepend it, trim, schedule a save, broadcast the sanitized view
and answer 201. -/
def finishStore (cfg : Config) (s : ServerState) (p : RawEntry) (pid : List Char)
    (now rho : ℚ) (nameO : Option (List Char)) (wev : List FsEvent) : TryOut :=
  { res := .created (sanitizePhoto (mkStored cfg p pid now rho nameO))
  , ps := (trimPhotoHistory cfg (mkStored cfg p pid now rho nameO :: s.photos)).1
  , sv := scheduleSave cfg s.save
  , bev := [BEvent.new_photo (sanitizePhoto (mkStored cfg p pid now rho nameO))]
  , fsev := wev ++ (trimPhotoHistory cfg (mkStored cfg p pid now rho nameO :: s.photos)).2
  , sfn := nameO }

/-- The try block of the POST handler (lines 252-295).  writeOk is
whether the image-file write succeeds; when it fails the handler lands in
the catch path and answers 500 with storageFileName already set. -/
def submitTry (cfg : Config) (s : ServerState) (body : Option RawEntry)
    (now rho : ℚ) (writeOk : Bool) : TryOut :=
  match validatePhotoPayload cfg body with
  | some e => ⟨.badRequest e, s.photos, s.save, [], [], none⟩
  | none =>
    match body with
    | none => ⟨.badRequest .invalidPayload, s.photos, s.save, [], [], none⟩
    | some p =>
      let pid := idStr p
      let primary := primaryOf p
      if truthy primary then
        match primary with
        | .str uri =>
          match decodeBase64Image uri with
          | none => ⟨.badRequest .malformedImage, s.photos, s.save, [], [], none⟩
          | some (mime, blen) =>
            let nm := pid ++ '.' :: imageExt mime
            if writeOk then
              finishStore cfg s p pid now rho (some nm) [FsEvent.writeImage nm blen]
            else ⟨.internalError, s.photos, s.save, [], [], some nm⟩
        | _ => ⟨.badRequest .unsupportedImageFormat, s.photos, s.save, [], [], none⟩
      else finishStore cfg s p pid now rho none []

/-- Result of a whole POST /api/photos request. -/
structure SubmitOut where
  result : SResult
  state : ServerState
  bev : List BEvent
  fsev : List FsEvent
deriving DecidableEq, Repr

/-- The POST /api/photos handler (lines 244-303): load-shed when the
in-flight counter is at the limit (before incrementing), otherwise
increment, run the try block, and in the finally clause unlink an
orphaned image file and decrement the counter (Math.max with 0 is Nat
subtraction here). -/
def submitPhoto (cfg : Config) (s : ServerState) (body : Option RawEntry)
    (now rho : ℚ) (writeOk : Bool) : SubmitOut :=
  if cfg.maxConcurrentUploads ≤ s.activeUploads then ⟨.busy, s, [], []⟩
  else
    let a1 := s.activeUploads + 1
    let t := submitTry cfg s body now rho writeOk
    let cleanup : List FsEvent :=
      match t.sfn with
      | some n =>
        if t.ps.all (fun q => decide (q.storageFile ≠ some n))
        then [FsEvent.unlinkImage n] else []
      | none => []
    ⟨t.res, { photos := t.ps, activeUploads := a1 - 1, save := t.sv }, t.bev, t.fsev ++ cleanup⟩

/-- Outcome of a DELETE /api/photos/:id request. -/
inductive DResult where
  | deleted
  | notFound
deriving DecidableEq, Repr

/-- Result of a whole DELETE request. -/
structure DeleteOut where
  result : DResult
  state : ServerState
  bev : List BEvent
  fsev : List FsEvent
deriving DecidableEq, Repr

/-- The DELETE /api/photos/:id handler (lines 305-324). -/
def deletePhoto (cfg : Config) (s : ServerState) (id : List Char) : DeleteOut :=
  match s.photos.find? (fun p => decide (p.id = id)) with
  | none => ⟨.notFound, s, [], []⟩
  | some ph =>
    { result := .deleted
    , state := { photos := s.photos.filter (fun p => decide (p.id ≠ id))
               , activeUploads := s.activeUploads
               , save := scheduleSave cfg s.save }
    , bev := [BEvent.delete_photo id]
    , fsev := match ph.storageFile with | some n => [FsEvent.unlinkImage n] | none => [] }

/-- The GET /api/photos handler (lines 240-242). -/
def listPhotos (s : ServerState) : List PublicPhotoView :=
  s.photos.map sanitizePhoto

/-- The server state right after startup (lines 334-336): photos loaded
from disk, no upload in flight, quiescent save state. -/
def initialState (cfg : Config) (now : ℚ) (wok : Bool)
    (disk : Option (List (Option RawEntry))) : ServerState :=
  { photos := (loadPhotos cfg now wok disk).1
  , activeUploads := 0
  , save := saveInit }

/-- States the server can reach: startup followed by any sequence of
submissions, deletions and passages of time. -/
inductive Reach (cfg : Config) : ServerState → Prop
  | init (now : ℚ) (wok : Bool) (disk : Option (List (Option RawEntry))) :
      Reach cfg (initialState cfg now wok disk)
  | submit {s} (body : Option RawEntry) (now rho : ℚ) (writeOk : Bool) :
      Reach cfg s → Reach cfg (submitPhoto cfg s body now rho writeOk).state
  | delete {s} (id : List Char) :
      Reach cfg s → Reach cfg (deletePhoto cfg s id).state
  | tick {s} (d : Nat) :
      Reach cfg s → Reach cfg { s with save := advanceTime cfg d s.save }

/-- The id carried by a payload, when the id field is a string. -/
def idOf (body : Option RawEntry) : Option (List Char) :=
  match body with
  | some p => match p.id with | .str i => some i | _ => none
  | none => none

/-- Reachability restricted to fresh submissions: every submitted id is
absent from the Ledger at submission time, and the snapshot loaded at
startup carries no duplicate ids. -/
inductive ReachU (cfg : Config) : ServerState → Prop
  | init (now : ℚ) (wok : Bool) (disk : Option (List (Option RawEntry))) :
      ((loadPhotos cfg now wok disk).1.map (fun r => r.id)).Nodup →
      ReachU cfg (initialState cfg now wok disk)
  | submit (s : ServerState) (body : Option RawEntry) (now rho : ℚ) (writeOk : Bool) :
      ReachU cfg s →
      (∀ i, idOf body = some i → i ∉ s.photos.map (fun r => r.id)) →
      ReachU cfg (submitPhoto cfg s body now rho writeOk).state
  | delete (s : ServerState) (id : List Char) :
      ReachU cfg s → ReachU cfg (deletePhoto cfg s id).state
  | tick (s : ServerState) (d : Nat) :
      ReachU cfg s → ReachU cfg { s with save := advanceTime cfg d s.save }

/-- Save states reachable from a given one by scheduling saves and
letting time pass. -/
inductive SaveSteps (cfg : Config) (st : SaveSt) : SaveSt → Prop
  | refl : SaveSteps cfg st st
  | sched {b} : SaveSteps cfg st b → SaveSteps cfg st (scheduleSave cfg b)
  | adv {b} (d : Nat) : SaveSteps cfg st b → SaveSteps cfg st (advanceTime cfg d b)

/-- A burst of mutations: one scheduleSave, then for each listed gap a
passage of that much time followed by another scheduleSave. -/
def burst (cfg : Config) (gaps : List Nat) (st : SaveSt) : SaveSt :=
  gaps.foldl (fun s g => scheduleSave cfg (advanceTime cfg g s)) (scheduleSave cfg st)

/-- A stored record as the running server produces them: the storage
file name, when present, is nonempty, and the image URL is derived from
it by buildImageUrl. -/
def wfRecord (cfg : Config) (r : PhotoRecord) : Prop :=
  r.storageFile ≠ some [] ∧ r.imageUrl = r.storageFile.map (buildImageUrl cfg)

/-! ### Concrete fixtures used by witnesses and counterexamples -/

/-- The default configuration of the source (env defaults of lines
12-25): history 150, concurrency 8, 3 MiB image cap, 1 s debounce, disk
cache off. -/
def cfg0 : Config :=
  { maxPhotoHistory := 150, maxConcurrentUploads := 8, maxImageBytes := 3145728
  , saveDebounceMs := 1000, enableDiskCache := false, uploadUrlBase := "/uploads".toList }

/-- The default configuration with disk persistence enabled. -/
def cfg1 : Config := { cfg0 with enableDiskCache := true }

/-- The default configuration with an 8-byte image cap. -/
def cfgSmall : Config := { cfg0 with maxImageBytes := 8 }

/-- A server state with an empty Ledger. -/
def sEmpty : ServerState := { photos := [], activeUploads := 0, save := saveInit }

/-- A minimal text-only payload with id a. -/
def rawA : RawEntry :=
  { id := .str ['a'], caption := .undefVal, timestamp := .undefVal, rotation := .undefVal
  , author := .undefVal, storageFile := .undefVal, images := .notArr .undefVal, imageUrl := .undefVal }

/-- A small well-formed PNG data URI (three decoded bytes). -/
def uriPng : List Char := "data:image/png;base64,AAAA".toList

/-- The payload rawA with the image uriPng attached. -/
def rawImg : RawEntry := { rawA with images := .arr [.str uriPng] }

/-- A data URI with a comma inside the media type: the approximate size
check measures the eight characters between the first and second comma,
while the decoder reads the twelve base64 characters after the last
base64 marker (nine decoded bytes). -/
def uriEvil : List Char := "data:image/png,x;base64,AAAAAAAAAAAA".toList

/-- The payload rawA with the crafted image uriEvil attached. -/
def rawEvil : RawEntry := { rawA with images := .arr [.str uriEvil] }

/-- A canonical text-only record with id a. -/
def recA : PhotoRecord :=
  { id := ['a'], caption := [], timestamp := 0, rotation := 0, author := .undefVal
  , imageUrl := none, storageFile := none }

/-- A canonical image-backed record with id b. -/
def recB : PhotoRecord :=
  { id := ['b'], caption := "hi".toList, timestamp := 5, rotation := 1, author := .str ['x']
  , imageUrl := some (buildImageUrl cfg1 "b.png".toList), storageFile := some "b.png".toList }

/-- A two-record Ledger used by the round-trip witness. -/
def ledgerW : List PhotoRecord := [recB, recA]

/-- A server state whose Ledger holds exactly recA. -/
def sWit : ServerState := { photos := [recA], activeUploads := 0, save := saveInit }

/-! ### Helper lemmas -/

lemma trim_length_le (cfg : Config) (l : List PhotoRecord) :
    (trimPhotoHistory cfg l).1.length ≤ cfg.maxPhotoHistory := by
  unfold trimPhotoHistory
  split
  · simpa using ‹l.length ≤ cfg.maxPhotoHistory›
  · simp [List.length_take]

lemma trim_sublist (cfg : Config) (l : List PhotoRecord) :
    (trimPhotoHistory cfg l).1.Sublist l := by
  unfold trimPhotoHistory
  split
  · simp
  · simpa using List.take_sublist _ _

lemma trim_of_le (cfg : Config) (l : List PhotoRecord)
    (h : l.length ≤ cfg.maxPhotoHistory) : trimPhotoHistory cfg l = (l, []) := by
  unfold trimPhotoHistory
  simp [h]

lemma validate_id_str {cfg : Config} {p : RawEntry}
    (hv : validatePhotoPayload cfg (some p) = none) : ∃ pid, p.id = JPrim.str pid := by
  unfold validatePhotoPayload at hv
  cases h : p.id <;> simp [h] at hv
  exact ⟨_, rfl⟩

lemma submitTry_eq (cfg : Config) (s : ServerState) (body : Option RawEntry)
    (now rho : ℚ) (wok : Bool) :
    (∃ e, submitTry cfg s body now rho wok =
        ⟨.badRequest e, s.photos, s.save, [], [], none⟩)
    ∨ (∃ nm, submitTry cfg s body now rho wok =
        ⟨.internalError, s.photos, s.save, [], [], some nm⟩)
    ∨ (∃ p pid nameO wev, body = some p ∧ p.id = JPrim.str pid ∧
        submitTry cfg s body now rho wok = finishStore cfg s p pid now rho nameO wev) := by
  simp only [submitTry]
  split
  · exact Or.inl ⟨_, rfl⟩
  next hv =>
    split
    · simp [validatePhotoPayload] at hv
    next p =>
      obtain ⟨pid, hpid⟩ := validate_id_str hv
      have hstr : RawEntry.id p = JPrim.str (idStr p) := by simp [idStr, hpid]
      split
      · split
        · split
          · exact Or.inl ⟨_, rfl⟩
          · split
            · exact Or.inr (Or.inr ⟨p, idStr p, _, _, rfl, hstr, rfl⟩)
            · exact Or.inr (Or.inl ⟨_, rfl⟩)
        all_goals exact Or.inl ⟨_, rfl⟩
      · exact Or.inr (Or.inr ⟨p, idStr p, none, [], rfl, hstr, rfl⟩)

lemma submit_not_busy (cfg : Config) (s : ServerState) (body : Option RawEntry)
    (now rho : ℚ) (wok : Bool) (h : ¬ cfg.maxConcurrentUploads ≤ s.activeUploads) :
    submitPhoto cfg s body now rho wok =
      (let t := submitTry cfg s body now rho wok
       let cleanup : List FsEvent :=
         match t.sfn with
         | some n =>
           if t.ps.all (fun q => decide (q.storageFile ≠ some n))
           then [FsEvent.unlinkImage n] else []
         | none => []
       ⟨t.res, { photos := t.ps, activeUploads := s.activeUploads + 1 - 1, save := t.sv },
        t.bev, t.fsev ++ cleanup⟩) := by
  unfold submitPhoto
  simp [h]

lemma submit_photos_cases (cfg : Config) (s : ServerState) (body : Option RawEntry)
    (now rho : ℚ) (wok : Bool) :
    (submitPhoto cfg s body now rho wok).state.photos = s.photos ∨
    ∃ p pid nameO, body = some p ∧ p.id = JPrim.str pid ∧
      (submitPhoto cfg s body now rho wok).state.photos =
        (trimPhotoHistory cfg (mkStored cfg p pid now rho nameO :: s.photos)).1 := by
  by_cases hb : cfg.maxConcurrentUploads ≤ s.activeUploads
  · left
    unfold submitPhoto
    simp [hb]
  · rw [submit_not_busy cfg s body now rho wok hb]
    rcases submitTry_eq cfg s body now rho wok with ⟨e, he⟩ | ⟨nm, he⟩ |
      ⟨p, pid, nameO, wev, hbody, hpid, he⟩
    · left; rw [he]
    · left; rw [he]
    · right
      exact ⟨p, pid, nameO, hbody, hpid, by rw [he]; rfl⟩

lemma submit_bev_cases (cfg : Config) (s : ServerState) (body : Option RawEntry)
    (now rho : ℚ) (wok : Bool) :
    (submitPhoto cfg s body now rho wok).bev = [] ∨
    ∃ r, (submitPhoto cfg s body now rho wok).bev = [BEvent.new_photo (sanitizePhoto r)] := by
  by_cases hb : cfg.maxConcurrentUploads ≤ s.activeUploads
  · left
    unfold submitPhoto
    simp [hb]
  · rw [submit_not_busy cfg s body now rho wok hb]
    rcases submitTry_eq cfg s body now rho wok with ⟨e, he⟩ | ⟨nm, he⟩ |
      ⟨p, pid, nameO, wev, hbody, hpid, he⟩
    · left; rw [he]
    · left; rw [he]
    · right; exact ⟨_, by rw [he]; rfl⟩

lemma submit_save_cases (cfg : Config) (s : ServerState) (body : Option RawEntry)
    (now rho : ℚ) (wok : Bool) :
    (submitPhoto cfg s body now rho wok).state.save = s.save ∨
    (submitPhoto cfg s body now rho wok).state.save = scheduleSave cfg s.save := by
  by_cases hb : cfg.maxConcurrentUploads ≤ s.activeUploads
  · left
    unfold submitPhoto
    simp [hb]
  · rw [submit_not_busy cfg s body now rho wok hb]
    rcases submitTry_eq cfg s body now rho wok with ⟨e, he⟩ | ⟨nm, he⟩ |
      ⟨p, pid, nameO, wev, hbody, hpid, he⟩
    · left; rw [he]
    · left; rw [he]
    · right; rw [he]; rfl

lemma scheduleSave_disabled {cfg : Config} (h : cfg.enableDiskCache = false)
    (st : SaveSt) : scheduleSave cfg st = st := by
  unfold scheduleSave
  simp [h]

lemma delete_photos_len (cfg : Config) (s : ServerState) (id : List Char) :
    (deletePhoto cfg s id).state.photos.length ≤ s.photos.length := by
  unfold deletePhoto
  cases h : s.photos.find? (fun p => decide (p.id = id)) with
  | none => simp
  | some ph => simpa using List.length_filter_le _ _

lemma delete_photos_sublist (cfg : Config) (s : ServerState) (id : List Char) :
    (deletePhoto cfg s id).state.photos.Sublist s.photos := by
  unfold deletePhoto
  cases h : s.photos.find? (fun p => decide (p.id = id)) with
  | none => simp
  | some ph => simp [List.filter_sublist s.photos]

lemma delete_save_cases (cfg : Config) (s : ServerState) (id : List Char) :
    (deletePhoto cfg s id).state.save = s.save ∨
    (deletePhoto cfg s id).state.save = scheduleSave cfg s.save := by
  unfold deletePhoto
  cases h : s.photos.find? (fun p => decide (p.id = id)) with
  | none => left; rfl
  | some ph => right; rfl

lemma loadPhotos_length (cfg : Config) (now : ℚ) (wok : Bool)
    (disk : Option (List (Option RawEntry))) :
    (loadPhotos cfg now wok disk).1.length ≤ cfg.maxPhotoHistory := by
  unfold loadPhotos
  split
  · simp
  · split
    · simp
    · exact trim_length_le cfg _

/-! ### Claims -/

/-- Claim C1: after startup and after every completed submitPhoto or
deletePhoto operation (and any passage of timer time), the Ledger holds
at most maxPhotoHistory records, because insertion is always followed by
trimming of the tail. -/
theorem claim1_ledger_bounded (cfg : Config) (s : ServerState) (h : Reach cfg s) :
    s.photos.length ≤ cfg.maxPhotoHistory := by
  induction h with
  | init now wok disk => exact loadPhotos_length cfg now wok disk
  | submit body now rho wok hs ih =>
    rcases submit_photos_cases cfg _ body now rho wok with h1 | ⟨p, pid, nameO, _, _, h1⟩
    · rw [h1]; exact ih
    · rw [h1]; exact trim_length_le cfg _
  | delete id hs ih => exact le_trans (delete_photos_len cfg _ id) ih
  | tick d hs ih => exact ih

/-- Witness for C1 at the freshly started server. -/
theorem claim1_witness : (initialState cfg0 0 true none).photos.length ≤ cfg0.maxPhotoHistory :=
  claim1_ledger_bounded cfg0 _ (Reach.init 0 true none)

/-- Claim C2: every completed submitPhoto call leaves the in-flight
upload counter exactly where it found it, on the busy path, the
validation-rejection paths, the success path and the internal-error
path alike. -/
theorem claim2_no_permit_leak (cfg : Config) (s : ServerState) (body : Option RawEntry)
    (now rho : ℚ) (wok : Bool) :
    (submitPhoto cfg s body now rho wok).state.activeUploads = s.activeUploads := by
  by_cases hb : cfg.maxConcurrentUploads ≤ s.activeUploads
  · unfold submitPhoto; simp [hb]
  · rw [submit_not_busy cfg s body now rho wok hb]
    simp

/-- Claim C3: trimming overflow inside submitPhoto never emits a
deletion broadcast, while every successful deletePhoto emits exactly one
deletion broadcast carrying the deleted id. -/
theorem claim3_eviction_silent_deletion_loud :
    (∀ cfg s body now rho wok j,
        BEvent.delete_photo j ∉ (submitPhoto cfg s body now rho wok).bev)
    ∧ (∀ cfg s id, (deletePhoto cfg s id).result = DResult.deleted →
        (deletePhoto cfg s id).bev = [BEvent.delete_photo id]) := by
  constructor
  · intro cfg s body now rho wok j
    rcases submit_bev_cases cfg s body now rho wok with h | ⟨r, h⟩ <;> simp [h]
  · intro cfg s id h
    unfold deletePhoto at h ⊢
    cases hf : s.photos.find? (fun p => decide (p.id = id)) with
    | none => rw [hf] at h; simp at h
    | some ph => rfl

/-- Witness for C3: deleting the only record of a one-record Ledger
broadcasts exactly its id. -/
theorem claim3_witness : (deletePhoto cfg0 sWit ['a']).bev = [BEvent.delete_photo ['a']] :=
  claim3_eviction_silent_deletion_loud.2 cfg0 sWit ['a'] (by decide)

/-- Claim C10: the sanitized view consists of exactly the public fields
with an always-empty images list, is independent of storageFile, is what
list queries return, and every broadcast creation event carries such a
view with an empty images list. -/
theorem claim10_sanitized_view :
    (∀ p : PhotoRecord, sanitizePhoto p =
        { id := p.id, caption := p.caption, timestamp := p.timestamp
        , rotation := p.rotation, author := p.author, imageUrl := p.imageUrl, images := [] })
    ∧ (∀ p sf, sanitizePhoto { p with storageFile := sf } = sanitizePhoto p)
    ∧ (∀ s, listPhotos s = s.photos.map sanitizePhoto)
    ∧ (∀ cfg s body now rho wok v,
        BEvent.new_photo v ∈ (submitPhoto cfg s body now rho wok).bev → v.images = []) := by
  refine ⟨fun p => rfl, fun p sf => rfl, fun s => rfl, ?_⟩
  intro cfg s body now rho wok v hv
  rcases submit_bev_cases cfg s body now rho wok with h | ⟨r, h⟩
  · rw [h] at hv; simp at hv
  · rw [h] at hv
    simp at hv
    rw [hv]
    rfl

/-- Witness for C10 on a concrete accepted submission. -/
theorem claim10_witness : (sanitizePhoto (mkStored cfg0 rawA ['a'] 0 0 none)).images = [] :=
  claim10_sanitized_view.2.2.2 cfg0 sEmpty (some rawA) 0 0 true _ (List.Mem.head _)

lemma submit_result_eq (cfg : Config) (s : ServerState) (body : Option RawEntry)
    (now rho : ℚ) (wok : Bool) (hb : ¬ cfg.maxConcurrentUploads ≤ s.activeUploads) :
    (submitPhoto cfg s body now rho wok).result = (submitTry cfg s body now rho wok).res := by
  rw [submit_not_busy cfg s body now rho wok hb]

lemma submit_result_created {cfg : Config} {s : ServerState} {body : Option RawEntry}
    {now rho : ℚ} {wok : Bool} {v : PublicPhotoView}
    (h : (submitPhoto cfg s body now rho wok).result = SResult.created v) :
    ∃ p pid nameO, body = some p ∧ p.id = JPrim.str pid ∧
      v = sanitizePhoto (mkStored cfg p pid now rho nameO) := by
  by_cases hb : cfg.maxConcurrentUploads ≤ s.activeUploads
  · unfold submitPhoto at h
    simp [hb] at h
  · rw [submit_result_eq cfg s body now rho wok hb] at h
    rcases submitTry_eq cfg s body now rho wok with ⟨e, he⟩ | ⟨nm, he⟩ |
      ⟨p, pid, nameO, wev, hbody, hpid, he⟩
    · rw [he] at h; simp at h
    · rw [he] at h; simp at h
    · rw [he] at h
      simp only [finishStore, SResult.created.injEq] at h
      exact ⟨p, pid, nameO, hbody, hpid, h.symm⟩

/-- Counterexample to C4: the POST handler never checks whether the
submitted id is already present, so submitting the payload rawA twice
from a fresh server yields a reachable state whose Ledger holds two
records with id a. -/
theorem claim4_counterexample :
    Reach cfg0
      (submitPhoto cfg0
        (submitPhoto cfg0 (initialState cfg0 0 true none) (some rawA) 0 0 true).state
        (some rawA) 0 0 true).state
    ∧ ¬ ((submitPhoto cfg0
        (submitPhoto cfg0 (initialState cfg0 0 true none) (some rawA) 0 0 true).state
        (some rawA) 0 0 true).state.photos.map (fun r => r.id)).Nodup :=
  ⟨Reach.submit (some rawA) 0 0 true
      (Reach.submit (some rawA) 0 0 true (Reach.init 0 true none)),
   by decide⟩

/-- Claim C4 amended: record ids are unique at every reachable state
provided every submission carries an id not already present in the
Ledger and the loaded snapshot is free of duplicates; a submission
reusing a live id produces a second record with that id (see the
counterexample). -/
theorem claim4_amended (cfg : Config) (s : ServerState) (h : ReachU cfg s) :
    (s.photos.map (fun r => r.id)).Nodup := by
  induction h with
  | init now wok disk hn => exact hn
  | submit s' body now rho wok hs hfresh ih =>
    rcases submit_photos_cases cfg s' body now rho wok with h1 | ⟨p, pid, nameO, hbody, hpid, h1⟩
    · rw [h1]; exact ih
    · rw [h1]
      have hsub := (trim_sublist cfg (mkStored cfg p pid now rho nameO :: s'.photos)).map
        (fun r => r.id)
      refine List.Nodup.sublist hsub ?_
      rw [List.map_cons]
      refine List.nodup_cons.mpr ⟨?_, ih⟩
      have hidOf : idOf body = some pid := by simp [idOf, hbody, hpid]
      exact hfresh pid hidOf
  | delete s' id hs ih =>
    exact List.Nodup.sublist ((delete_photos_sublist cfg s' id).map (fun r => r.id)) ih
  | tick s' d hs ih => exact ih

/-- Witness for the amended C4 at the freshly started server. -/
theorem claim4_witness :
    ((initialState cfg0 0 true none).photos.map (fun r => r.id)).Nodup :=
  claim4_amended cfg0 _ (ReachU.init 0 true none (by decide))

/-- Counterexample to C5: an accepted submission whose rotation field is
absent stores the random default rho * 6 - 3 (here -3 with sample 0),
not 0. -/
theorem claim5_counterexample :
    (submitPhoto cfg0 sEmpty (some rawA) 5 0 true).state.photos.map (fun r => r.rotation)
      = [(-3 : ℚ)] ∧ ((-3 : ℚ) ≠ 0) := by
  constructor
  · show [(0 : ℚ) * 6 - 3] = [(-3 : ℚ)]
    norm_num
  · norm_num

/-- Claim C5 amended: a snapshot entry whose rotation is absent or not
numeric is normalized with rotation 0, while an accepted submission
whose rotation is absent or not numeric stores the random sample rho
mapped to rho * 6 - 3, a value in the half-open interval from -3 to 3. -/
theorem claim5_amended :
    (∀ (cfg : Config) (now : ℚ) (wok : Bool) (entry : Option RawEntry) r evs,
        normalizePhotoRecord cfg now wok entry = (some r, evs) →
        (∀ e, entry = some e → isNum e.rotation = false) →
        r.rotation = 0)
    ∧ (∀ (cfg : Config) (s : ServerState) (body : Option RawEntry) (p : RawEntry)
        (now rho : ℚ) (wok : Bool) (v : PublicPhotoView),
        body = some p → isNum p.rotation = false →
        0 ≤ rho → rho < 1 →
        (submitPhoto cfg s body now rho wok).result = SResult.created v →
        v.rotation = rho * 6 - 3 ∧ -3 ≤ v.rotation ∧ v.rotation < 3) := by
  constructor
  · intro cfg now wok entry r evs h hnum
    cases entry with
    | none => simp [normalizePhotoRecord] at h
    | some e =>
      have he : isNum e.rotation = false := hnum e rfl
      cases hid : e.id with
      | str pid =>
        simp only [normalizePhotoRecord, hid] at h
        rw [Prod.mk.injEq] at h
        obtain ⟨h1, -⟩ := h
        obtain rfl := Option.some.inj h1
        show jNumOrElse e.rotation 0 = 0
        cases hr : e.rotation <;> simp [jNumOrElse]
        rw [hr] at he
        simp [isNum] at he
      | undefVal => simp [normalizePhotoRecord, hid] at h
      | null => simp [normalizePhotoRecord, hid] at h
      | bool b => simp [normalizePhotoRecord, hid] at h
      | num q => simp [normalizePhotoRecord, hid] at h
      | otherTruthy => simp [normalizePhotoRecord, hid] at h
  · intro cfg s body p now rho wok v hbody hnum h0 h1 hres
    obtain ⟨p', pid, nameO, hbody', hpid, hv⟩ := submit_result_created hres
    rw [hbody] at hbody'
    obtain rfl := Option.some.inj hbody'
    have hrot : v.rotation = rho * 6 - 3 := by
      rw [hv]
      show jNumOrElse p.rotation (rho * 6 - 3) = rho * 6 - 3
      cases hr : p.rotation <;> simp [jNumOrElse]
      rw [hr] at hnum
      simp [isNum] at hnum
    refine ⟨hrot, ?_, ?_⟩ <;> rw [hrot] <;> linarith

/-- Witness for the amended C5: the normalizer branch at a concrete
entry with absent rotation, and the submission branch at sample 0. -/
theorem claim5_witness :
    recA.rotation = 0 ∧
    ((sanitizePhoto (mkStored cfg0 rawA ['a'] 0 0 none)).rotation = (0 : ℚ) * 6 - 3 ∧
      -3 ≤ (sanitizePhoto (mkStored cfg0 rawA ['a'] 0 0 none)).rotation ∧
      (sanitizePhoto (mkStored cfg0 rawA ['a'] 0 0 none)).rotation < 3) :=
  ⟨claim5_amended.1 cfg0 0 true (some rawA) recA [] rfl (by intro e he; cases he; rfl),
   claim5_amended.2 cfg0 sEmpty (some rawA) rawA 0 0 true _ rfl rfl (by norm_num) (by norm_num)
     rfl⟩

/-- Counterexample to C6: with the disk cache disabled, submitting a
payload carrying a valid inline image still performs a file-system
write (the decoded image is stored under uploads). -/
theorem claim6_counterexample :
    cfg0.enableDiskCache = false ∧
    (submitPhoto cfg0 sEmpty (some rawImg) 0 0 true).fsev
      = [FsEvent.writeImage "a.png".toList 3] :=
  ⟨rfl, by decide⟩

/-- Claim C6 amended: with the disk cache disabled the snapshot file is
never read (startup yields an empty Ledger and no file event) and
snapshot writes are never scheduled or performed by mutations or timer
expiry; image-file writes and unlinks still occur for submissions that
carry images (see the counterexample). -/
theorem claim6_amended (cfg : Config) (h : cfg.enableDiskCache = false) :
    (∀ now wok disk, loadPhotos cfg now wok disk = ([], []))
    ∧ (∀ s body now rho wok,
        (submitPhoto cfg s body now rho wok).state.save = s.save)
    ∧ (∀ s id, (deletePhoto cfg s id).state.save = s.save)
    ∧ (∀ d st, (advanceTime cfg d st).writes = st.writes) := by
  refine ⟨?_, ?_, ?_, ?_⟩
  · intro now wok disk
    unfold loadPhotos
    simp [h]
  · intro s body now rho wok
    rcases submit_save_cases cfg s body now rho wok with h1 | h1
    · exact h1
    · rw [h1, scheduleSave_disabled h]
  · intro s id
    rcases delete_save_cases cfg s id with h1 | h1
    · exact h1
    · rw [h1, scheduleSave_disabled h]
  · intro d st
    simp only [advanceTime, h, Bool.false_eq_true, if_false, Nat.add_zero]
    split
    · split
      · split <;> rfl
      · rfl
    · rfl

/-- Witness for the amended C6 at the default (disabled) configuration. -/
theorem claim6_witness :
    loadPhotos cfg0 0 true none = ([], []) ∧
    (submitPhoto cfg0 sEmpty (some rawA) 0 0 true).state.save = sEmpty.save :=
  ⟨(claim6_amended cfg0 rfl).1 0 true none,
   (claim6_amended cfg0 rfl).2.1 sEmpty (some rawA) 0 0 true⟩

lemma burst_fold (cfg : Config) (hE : cfg.enableDiskCache = true) :
    ∀ (gaps : List Nat) (dl t w : Nat), t + gaps.sum < dl →
      gaps.foldl (fun s g => scheduleSave cfg (advanceTime cfg g s))
        ⟨true, some dl, 1, t, w⟩ = ⟨true, some dl, 1, t + gaps.sum, w⟩ := by
  intro gaps
  induction gaps with
  | nil => intro dl t w h; simp
  | cons g gs ih =>
    intro dl t w h
    rw [List.sum_cons] at h
    have hlt : ¬ dl ≤ t + g := by omega
    rw [List.foldl_cons]
    have hadv : advanceTime cfg g ⟨true, some dl, 1, t, w⟩ = ⟨true, some dl, 1, t + g, w⟩ := by
      simp [advanceTime, hlt]
    rw [hadv]
    have hsch : scheduleSave cfg ⟨true, some dl, 1, t + g, w⟩
        = ⟨true, some dl, 1, t + g, w⟩ := by
      simp [scheduleSave, hE]
    rw [hsch, ih dl (t + g) w (by omega), List.sum_cons, ← Nat.add_assoc]

lemma saveSteps_count (cfg : Config) {st : SaveSt}
    (h0 : st.timerCount = (if st.saveTimer.isSome then 1 else 0)) :
    ∀ {s'}, SaveSteps cfg st s' → s'.timerCount = (if s'.saveTimer.isSome then 1 else 0) := by
  intro s' h
  induction h with
  | refl => exact h0
  | sched hb ih =>
    rename_i b
    cases hE2 : cfg.enableDiskCache with
    | false => simpa [scheduleSave, hE2] using ih
    | true =>
      cases hbt : b.saveTimer with
      | some dl =>
        simp [hbt] at ih
        simp [scheduleSave, hE2, hbt, ih]
      | none =>
        simp [hbt] at ih
        simp [scheduleSave, hE2, hbt, ih]
  | adv d hb ih =>
    rename_i b
    cases hbt : b.saveTimer with
    | none =>
      simp [hbt] at ih
      simp [advanceTime, hbt, ih]
    | some dl =>
      have ih' : b.timerCount = 1 := by simpa [hbt] using ih
      by_cases hd : dl ≤ b.now + d
      · by_cases hp : b.savePending = true
        · simp [advanceTime, hbt, hd, hp, ih']
        · simp [advanceTime, hbt, hd, hp, ih']
      · simp [advanceTime, hbt, hd, ih']

/-- Claim C8: with persistence enabled and a quiescent save state, a
burst of one or more mutations all issued strictly within the debounce
delay of the first produces exactly one snapshot write when the single
timer fires; a mutation, a wait of at least the delay, another mutation
and another such wait produce exactly two writes; and along any sequence
of mutations and passages of time at most one timer is outstanding. -/
theorem claim8_debounce (cfg : Config) (hE : cfg.enableDiskCache = true)
    (st : SaveSt) (hT : st.saveTimer = none) (hP : st.savePending = false)
    (hC : st.timerCount = 0) :
    (∀ gaps : List Nat, gaps.sum < cfg.saveDebounceMs →
        (advanceTime cfg cfg.saveDebounceMs (burst cfg gaps st)).writes = st.writes + 1)
    ∧ (∀ d1 d2 : Nat, cfg.saveDebounceMs ≤ d1 → cfg.saveDebounceMs ≤ d2 →
        (advanceTime cfg d2 (scheduleSave cfg (advanceTime cfg d1 (scheduleSave cfg st)))).writes
          = st.writes + 2)
    ∧ (∀ s', SaveSteps cfg st s' → s'.timerCount ≤ 1) := by
  obtain ⟨p, tm, c, n, w⟩ := st
  dsimp only at hT hP hC
  subst hT
  subst hP
  subst hC
  have hsched0 : scheduleSave cfg ⟨false, none, 0, n, w⟩
      = ⟨true, some (n + cfg.saveDebounceMs), 1, n, w⟩ := by
    simp [scheduleSave, hE]
  refine ⟨?_, ?_, ?_⟩
  · intro gaps hg
    unfold burst
    rw [hsched0, burst_fold cfg hE gaps (n + cfg.saveDebounceMs) n w (by omega)]
    have hfire : n + cfg.saveDebounceMs ≤ (n + gaps.sum) + cfg.saveDebounceMs := by omega
    simp [advanceTime, hfire, hE]
  · intro d1 d2 h1 h2
    rw [hsched0]
    have e1 : advanceTime cfg d1 ⟨true, some (n + cfg.saveDebounceMs), 1, n, w⟩
        = ⟨false, none, 0, n + d1, w + 1⟩ := by
      have hle : n + cfg.saveDebounceMs ≤ n + d1 := by omega
      simp [advanceTime, hle, hE]
    rw [e1]
    have e2 : scheduleSave cfg ⟨false, none, 0, n + d1, w + 1⟩
        = ⟨true, some (n + d1 + cfg.saveDebounceMs), 1, n + d1, w + 1⟩ := by
      simp [scheduleSave, hE]
    rw [e2]
    have hle2 : n + d1 + cfg.saveDebounceMs ≤ n + d1 + d2 := by omega
    simp [advanceTime, hle2, hE]
  · intro s' h
    have hc := saveSteps_count cfg (by simp) h
    rw [hc]
    split <;> simp

/-- Witness for C8 with the default enabled configuration: a single
mutation from the quiescent state yields one write after the delay, and
the quiescent state has no outstanding timer. -/
theorem claim8_witness :
    (advanceTime cfg1 cfg1.saveDebounceMs (burst cfg1 [] saveInit)).writes
      = saveInit.writes + 1 ∧
    saveInit.timerCount ≤ 1 :=
  ⟨(claim8_debounce cfg1 rfl saveInit rfl rfl rfl).1 [] (by decide),
   (claim8_debounce cfg1 rfl saveInit rfl rfl rfl).2.2 saveInit SaveSteps.refl⟩

lemma normalize_roundtrip (cfg : Config) (now : ℚ) (wok : Bool) (r : PhotoRecord)
    (h1 : r.storageFile ≠ some [])
    (h2 : r.imageUrl = r.storageFile.map (buildImageUrl cfg)) :
    normalizePhotoRecord cfg now wok (some (recordToRaw r)) = (some r, []) := by
  obtain ⟨id, cap, ts, rot, au, iu, sf⟩ := r
  cases sf with
  | none =>
    simp only [Option.map_none] at h2
    subst h2
    simp [normalizePhotoRecord, recordToRaw, jStrOrElse, jNumOrElse]
  | some s =>
    have hs : ¬ s = [] := by simpa using h1
    simp only [Option.map_some] at h2
    subst h2
    simp [normalizePhotoRecord, recordToRaw, jStrOrElse, jNumOrElse, hs]

lemma load_fold (cfg : Config) (now : ℚ) (wok : Bool) :
    ∀ (L : List PhotoRecord) (acc1 : List PhotoRecord) (acc2 : List FsEvent),
      (∀ r ∈ L, wfRecord cfg r) →
      (L.map (fun r => some (recordToRaw r))).foldl (loadStep cfg now wok) (acc1, acc2)
        = (acc1 ++ L, acc2) := by
  intro L
  induction L with
  | nil => intro acc1 acc2 h; simp
  | cons r L ih =>
    intro acc1 acc2 h
    rw [List.map_cons, List.foldl_cons]
    have hwf := h r (List.mem_cons_self r L)
    have hn := normalize_roundtrip cfg now wok r hwf.1 hwf.2
    have hstep : loadStep cfg now wok (acc1, acc2) (some (recordToRaw r))
        = (acc1 ++ [r], acc2) := by
      simp [loadStep, hn]
    rw [hstep, ih (acc1 ++ [r]) acc2 (fun x hx => h x (List.mem_cons_of_mem _ hx))]
    simp

/-- Claim C9: serializing a well-formed Ledger that respects the
retention bound and reloading the snapshot through the normalizer and
the trim pass reproduces the Ledger exactly, so the sanitized contents
(ids, captions, timestamps, rotations, authors, image availability) are
identical and in the same order. -/
theorem claim9_roundtrip (cfg : Config) (now : ℚ) (wok : Bool) (L : List PhotoRecord)
    (hE : cfg.enableDiskCache = true)
    (hwf : ∀ r ∈ L, wfRecord cfg r)
    (hlen : L.length ≤ cfg.maxPhotoHistory) :
    (loadPhotos cfg now wok (some (savePhotosSnapshot L))).1.map sanitizePhoto
      = L.map sanitizePhoto := by
  simp only [loadPhotos, savePhotosSnapshot, hE, Bool.not_true, Bool.false_eq_true, if_false]
  rw [load_fold cfg now wok L [] [] hwf]
  simp [trim_of_le cfg L hlen]

/-- Witness for C9 on a two-record Ledger (one image-backed record, one
text-only record). -/
theorem claim9_witness :
    (loadPhotos cfg1 0 true (some (savePhotosSnapshot ledgerW))).1.map sanitizePhoto
      = ledgerW.map sanitizePhoto :=
  claim9_roundtrip cfg1 0 true ledgerW rfl
    (by
      intro r hr
      simp only [ledgerW, List.mem_cons, List.mem_singleton] at hr
      rcases hr with rfl | hr
      · exact ⟨by decide, rfl⟩
      · rcases hr with rfl | h
        · exact ⟨by decide, rfl⟩
        · cases h)
    (by decide)

lemma pref_of_append (a t : List Char) : (a.isPrefixOf (a ++ t)) = true := by
  induction a with
  | nil => simp [List.isPrefixOf]
  | cons c cs ih => simp [List.isPrefixOf, ih]

lemma eq_append_of_isPrefixOf : ∀ {a l : List Char}, (a.isPrefixOf l) = true →
    l = a ++ l.drop a.length := by
  intro a
  induction a with
  | nil => intro l _; simp
  | cons c cs ih =>
    intro l h
    cases l with
    | nil => simp [List.isPrefixOf] at h
    | cons d ds =>
      simp only [List.isPrefixOf, Bool.and_eq_true, beq_iff_eq] at h
      obtain ⟨rfl, h2⟩ := h
      simpa using ih h2

lemma splitLastMarker_none : ∀ (t : List Char),
    (∀ t1 t2, t = t1 ++ b64marker ++ t2 → t2 = []) → splitLastMarker t = none := by
  intro t
  induction t with
  | nil => intro _; rfl
  | cons c cs ih =>
    intro h
    have hcs : splitLastMarker cs = none := by
      apply ih
      intro t1 t2 heq
      exact h (c :: t1) t2 (by rw [heq]; rfl)
    by_cases hpre : (b64marker.isPrefixOf (c :: cs)) = true
    · have heqc := eq_append_of_isPrefixOf hpre
      have h2 := h [] ((c :: cs).drop b64marker.length) (by simpa using heqc)
      simp [splitLastMarker, hcs, hpre, h2]
    · simp [splitLastMarker, hcs, hpre]

lemma base64_tail_no_marker (b : List Char) (hb : ',' ∉ b) :
    ∀ t1 t2, ['b', 'a', 's', 'e', '6', '4', ','] ++ b = t1 ++ b64marker ++ t2 → False := by
  intro t1 t2 heq
  by_cases hlen : t1.length < 7
  · have h2 : ((['b', 'a', 's', 'e', '6', '4', ','] : List Char) ++ b)[t1.length]?
        = some ';' := by
      rw [heq, List.append_assoc, List.getElem?_append_right (le_refl t1.length)]
      simp [b64marker]
    rw [List.getElem?_append_left (by simpa using hlen)] at h2
    set k := t1.length with hk
    interval_cases k <;> simp at h2
  · push_neg at hlen
    have h1 : ((['b', 'a', 's', 'e', '6', '4', ','] : List Char) ++ b)[t1.length + 7]?
        = some ',' := by
      rw [heq, List.append_assoc,
        List.getElem?_append_right (by omega : t1.length ≤ t1.length + 7)]
      have hidx : t1.length + 7 - t1.length = 7 := by omega
      rw [hidx]
      simp [b64marker]
    rw [List.getElem?_append_right
      (show (['b', 'a', 's', 'e', '6', '4', ','] : List Char).length ≤ t1.length + 7 by
        simp)] at h1
    exact hb (List.getElem?_mem h1)

lemma splitLastMarker_append : ∀ (m b : List Char), ',' ∉ m → ',' ∉ b → b ≠ [] →
    splitLastMarker (m ++ b64marker ++ b) = some (m, b) := by
  intro m
  induction m with
  | nil =>
    intro b hm hb hbne
    show splitLastMarker (b64marker ++ b) = some ([], b)
    have hnone : splitLastMarker (['b', 'a', 's', 'e', '6', '4', ','] ++ b) = none :=
      splitLastMarker_none _ (fun t1 t2 heq => (base64_tail_no_marker b hb t1 t2 heq).elim)
    show splitLastMarker (';' :: ((['b', 'a', 's', 'e', '6', '4', ','] : List Char) ++ b))
      = some ([], b)
    rw [splitLastMarker.eq_2, hnone]
    have hpre : (b64marker.isPrefixOf
        (';' :: ((['b', 'a', 's', 'e', '6', '4', ','] : List Char) ++ b))) = true :=
      pref_of_append b64marker b
    have hdrop : (';' :: ((['b', 'a', 's', 'e', '6', '4', ','] : List Char) ++ b)).drop
        b64marker.length = b := List.drop_left b64marker b
    rw [hpre, hdrop, decide_eq_true hbne]
    rfl
  | cons c m' ih =>
    intro b hm hb hbne
    have hm' : ',' ∉ m' := fun h => hm (List.mem_cons_of_mem _ h)
    show splitLastMarker (c :: (m' ++ b64marker ++ b)) = some (c :: m', b)
    rw [splitLastMarker.eq_2, ih b hm' hb hbne]

lemma isNL_not_b64 {c : Char} (h : isNL c = true) : isB64 c = false := by
  simp only [isNL, Bool.or_eq_true, decide_eq_true_eq] at h
  rcases h with ((h | h) | h) | h <;> subst h <;> decide

lemma isB64_not_NL {c : Char} (h : isB64 c = true) : isNL c = false := by
  by_cases hn : isNL c = true
  · rw [isNL_not_b64 hn] at h
    cases h
  · exact Bool.eq_false_iff.mpr hn

lemma decode_well_formed (mime B : List Char) (hmne : mime ≠ [])
    (hmc : ',' ∉ mime) (hmNL : ∀ c ∈ mime, isNL c = false)
    (hB : ∀ c ∈ B, isB64 c = true) (hBne : B ≠ []) :
    decodeBase64Image ("data:".toList ++ mime ++ b64marker ++ B)
      = some (mime, 3 * B.length / 4) := by
  have hBc : ',' ∉ B := by
    intro hc
    have := hB ',' hc
    simp [isB64] at this
  have hsplit := splitLastMarker_append mime B hmc hBc hBne
  have hpref : ("data:".toList.isPrefixOf ("data:".toList ++ mime ++ b64marker ++ B))
      = true := by
    simp [List.append_assoc]
  have hNL : (("data:".toList ++ mime ++ b64marker ++ B).all fun c => ! isNL c) = true := by
    rw [List.all_eq_true]
    intro c hc
    simp only [List.append_assoc, List.mem_append] at hc
    rcases hc with hc | hc | hc | hc
    · fin_cases hc <;> decide
    · simp [hmNL c hc]
    · fin_cases hc <;> decide
    · simp [isB64_not_NL (hB c hc)]
  have hdrop : ("data:".toList ++ mime ++ b64marker ++ B).drop 5
      = mime ++ b64marker ++ B := by
    rw [List.append_assoc, List.append_assoc]
    rw [show (5 : Nat) = ("data:".toList).length from rfl, List.drop_left]
    rw [← List.append_assoc]
  have hcount : B.countP isB64 = B.length := List.countP_eq_length.mpr (fun a ha => by
    rw [hB a ha])
  unfold decodeBase64Image
  rw [hpref, hNL, hdrop, hsplit]
  simp [hmne, b64DecodedLen, hcount]

lemma afterComma_append (l r : List Char) (hl : ',' ∉ l) :
    afterComma (l ++ ',' :: r) = r := by
  induction l with
  | nil => simp [afterComma]
  | cons c cs ih =>
    have hc : ¬ c = ',' := fun h => hl (h ▸ List.mem_cons_self c cs)
    have h2 : ',' ∉ cs := fun h => hl (List.mem_cons_of_mem _ h)
    simp [afterComma, hc, ih h2]

lemma takeWhile_no_comma (b : List Char) (hb : ',' ∉ b) :
    b.takeWhile (fun c => decide (c ≠ ',')) = b := by
  induction b with
  | nil => rfl
  | cons c cs ih =>
    have hc : c ≠ ',' := fun h => hb (h ▸ List.mem_cons_self c cs)
    have h2 : ',' ∉ cs := fun h => hb (List.mem_cons_of_mem _ h)
    rw [List.takeWhile_cons, decide_eq_true hc, if_pos rfl, ih h2]

lemma approx_well_formed (mime B : List Char) (hmc : ',' ∉ mime) (hBc : ',' ∉ B) :
    approxBytesFromDataUri ("data:".toList ++ mime ++ b64marker ++ B)
      = (3 * B.length + 3) / 4 := by
  have hmarker : b64marker = ";base64".toList ++ [','] := rfl
  have shape : "data:".toList ++ mime ++ b64marker ++ B
      = ("data:".toList ++ mime ++ ";base64".toList) ++ ',' :: B := by
    rw [hmarker]
    simp [List.append_assoc]
  have hnc : ',' ∉ ("data:".toList ++ mime ++ ";base64".toList) := by
    intro h
    rw [List.append_assoc, List.mem_append] at h
    rcases h with h | h
    · exact absurd h (by decide)
    · rw [List.mem_append] at h
      rcases h with h | h
      · exact hmc h
      · exact absurd h (by decide)
  unfold approxBytesFromDataUri secondChunk
  rw [shape, afterComma_append _ _ hnc, takeWhile_no_comma _ hBc]

lemma validate_nonstr_truthy (cfg : Config) (p : RawEntry) (pid : List Char)
    (hid : p.id = JPrim.str pid)
    (ht : truthy (primaryOf p) = true) (hns : ∀ uri, primaryOf p ≠ JPrim.str uri) :
    validatePhotoPayload cfg (some p) = some VErr.unsupportedImageFormat := by
  cases hp : primaryOf p with
  | str uri => exact absurd hp (hns uri)
  | undefVal => rw [hp] at ht; simp [truthy] at ht
  | null => rw [hp] at ht; simp [truthy] at ht
  | bool b =>
    rw [hp] at ht
    simp [truthy] at ht
    subst ht
    simp [validatePhotoPayload, hid, hp, truthy]
  | num q =>
    rw [hp] at ht
    simp [truthy] at ht
    simp [validatePhotoPayload, hid, hp, truthy, ht]
  | otherTruthy => simp [validatePhotoPayload, hid, hp, truthy]

lemma validate_str (cfg : Config) (p : RawEntry) (pid uri : List Char)
    (hid : p.id = JPrim.str pid)
    (hp : primaryOf p = JPrim.str uri) (hne : uri ≠ []) :
    validatePhotoPayload cfg (some p)
      = (if ("data:image".toList.isPrefixOf uri) then
           (if approxBytesFromDataUri uri > cfg.maxImageBytes then some VErr.exceedsLimit
            else none)
         else some VErr.unsupportedImageFormat) := by
  simp [validatePhotoPayload, hid, hp, truthy, hne]

lemma submit_badRequest_of_validate (cfg : Config) (s : ServerState) (body : Option RawEntry)
    (now rho : ℚ) (wok : Bool) (e : VErr)
    (hb : s.activeUploads < cfg.maxConcurrentUploads)
    (hv : validatePhotoPayload cfg body = some e) :
    submitPhoto cfg s body now rho wok
      = ⟨SResult.badRequest e, ⟨s.photos, s.activeUploads, s.save⟩, [], []⟩ := by
  have hb' : ¬ cfg.maxConcurrentUploads ≤ s.activeUploads := by omega
  rw [submit_not_busy cfg s body now rho wok hb']
  have ht : submitTry cfg s body now rho wok
      = ⟨SResult.badRequest e, s.photos, s.save, [], [], none⟩ := by
    unfold submitTry
    rw [hv]
  rw [ht]
  simp

lemma submit_malformed (cfg : Config) (s : ServerState) (p : RawEntry)
    (now rho : ℚ) (wok : Bool) (uri pid : List Char)
    (hb : s.activeUploads < cfg.maxConcurrentUploads)
    (hid : p.id = JPrim.str pid)
    (hp : primaryOf p = JPrim.str uri) (hne : uri ≠ [])
    (hpre : ("data:image".toList.isPrefixOf uri) = true)
    (hsz : ¬ approxBytesFromDataUri uri > cfg.maxImageBytes)
    (hd : decodeBase64Image uri = none) :
    submitPhoto cfg s (some p) now rho wok
      = ⟨SResult.badRequest VErr.malformedImage, ⟨s.photos, s.activeUploads, s.save⟩,
         [], []⟩ := by
  have hv : validatePhotoPayload cfg (some p) = none := by
    rw [validate_str cfg p pid uri hid hp hne, hpre]
    simp [hsz]
  have hb' : ¬ cfg.maxConcurrentUploads ≤ s.activeUploads := by omega
  rw [submit_not_busy cfg s (some p) now rho wok hb']
  have ht : submitTry cfg s (some p) now rho wok
      = ⟨SResult.badRequest VErr.malformedImage, s.photos, s.save, [], [], none⟩ := by
    simp [submitTry, hv, hp, hd, truthy, hne]
  rw [ht]
  simp

/-- Counterexample to C7: the size gate measures the segment between the
first and second comma, while the decoder reads everything after the
last base64 marker.  With an 8-byte cap, the crafted URI uriEvil (comma
inside the media type, twelve base64 characters, nine decoded bytes)
passes validation: the submission is accepted, a record is added and a
nine-byte file is written, although the decoded size exceeds the cap. -/
theorem claim7_counterexample :
    cfgSmall.maxImageBytes = 8 ∧
    decodeBase64Image uriEvil = some ("image/png,x".toList, 9) ∧
    (submitPhoto cfgSmall sEmpty (some rawEvil) 0 0 true).fsev
      = [FsEvent.writeImage "a.jpg".toList 9] ∧
    (submitPhoto cfgSmall sEmpty (some rawEvil) 0 0 true).state.photos.length = 1 :=
  ⟨rfl, by decide, by decide, by decide⟩

/-- Claim C7 amended: submissions with a truthy non-string image, or a
string image not starting with data-colon-image, are rejected as
unsupported before any file I/O; undecodable data URIs that pass the
size gate are rejected as malformed with no record and no file I/O; the
size gate rejects when the approximate byte count of the segment between
the first and second comma exceeds the configured maximum; and for
well-formed data URIs (comma-free media type, base64-alphabet payload)
any image whose decoded byte size exceeds the maximum is rejected with
no record added.  A URI with a comma inside its media type can evade the
size gate (see the counterexample). -/
theorem claim7_amended :
    (∀ (cfg : Config) (s : ServerState) (p : RawEntry) (now rho : ℚ) (wok : Bool)
        (pid : List Char),
        s.activeUploads < cfg.maxConcurrentUploads →
        p.id = JPrim.str pid →
        truthy (primaryOf p) = true → (∀ uri, primaryOf p ≠ JPrim.str uri) →
        submitPhoto cfg s (some p) now rho wok
          = ⟨SResult.badRequest VErr.unsupportedImageFormat,
             ⟨s.photos, s.activeUploads, s.save⟩, [], []⟩)
    ∧ (∀ (cfg : Config) (s : ServerState) (p : RawEntry) (now rho : ℚ) (wok : Bool)
        (pid uri : List Char),
        s.activeUploads < cfg.maxConcurrentUploads →
        p.id = JPrim.str pid →
        primaryOf p = JPrim.str uri → uri ≠ [] →
        ("data:image".toList.isPrefixOf uri) = false →
        submitPhoto cfg s (some p) now rho wok
          = ⟨SResult.badRequest VErr.unsupportedImageFormat,
             ⟨s.photos, s.activeUploads, s.save⟩, [], []⟩)
    ∧ (∀ (cfg : Config) (s : ServerState) (p : RawEntry) (now rho : ℚ) (wok : Bool)
        (pid uri : List Char),
        s.activeUploads < cfg.maxConcurrentUploads →
        p.id = JPrim.str pid →
        primaryOf p = JPrim.str uri → uri ≠ [] →
        ("data:image".toList.isPrefixOf uri) = true →
        approxBytesFromDataUri uri ≤ cfg.maxImageBytes →
        decodeBase64Image uri = none →
        submitPhoto cfg s (some p) now rho wok
          = ⟨SResult.badRequest VErr.malformedImage,
             ⟨s.photos, s.activeUploads, s.save⟩, [], []⟩)
    ∧ (∀ (cfg : Config) (s : ServerState) (p : RawEntry) (now rho : ℚ) (wok : Bool)
        (pid uri : List Char),
        s.activeUploads < cfg.maxConcurrentUploads →
        p.id = JPrim.str pid →
        primaryOf p = JPrim.str uri → uri ≠ [] →
        ("data:image".toList.isPrefixOf uri) = true →
        approxBytesFromDataUri uri > cfg.maxImageBytes →
        submitPhoto cfg s (some p) now rho wok
          = ⟨SResult.badRequest VErr.exceedsLimit,
             ⟨s.photos, s.activeUploads, s.save⟩, [], []⟩)
    ∧ (∀ (cfg : Config) (s : ServerState) (p : RawEntry) (now rho : ℚ) (wok : Bool)
        (pid mime B : List Char),
        s.activeUploads < cfg.maxConcurrentUploads →
        p.id = JPrim.str pid →
        primaryOf p = JPrim.str ("data:".toList ++ mime ++ b64marker ++ B) →
        ("data:image".toList.isPrefixOf ("data:".toList ++ mime ++ b64marker ++ B)) = true →
        mime ≠ [] → ',' ∉ mime → (∀ c ∈ mime, isNL c = false) →
        (∀ c ∈ B, isB64 c = true) → B ≠ [] →
        3 * B.length / 4 > cfg.maxImageBytes →
        decodeBase64Image ("data:".toList ++ mime ++ b64marker ++ B)
          = some (mime, 3 * B.length / 4) ∧
        submitPhoto cfg s (some p) now rho wok
          = ⟨SResult.badRequest VErr.exceedsLimit,
             ⟨s.photos, s.activeUploads, s.save⟩, [], []⟩) := by
  refine ⟨?_, ?_, ?_, ?_, ?_⟩
  · intro cfg s p now rho wok pid hb hid ht hns
    exact submit_badRequest_of_validate cfg s (some p) now rho wok _ hb
      (validate_nonstr_truthy cfg p pid hid ht hns)
  · intro cfg s p now rho wok pid uri hb hid hp hne hpre
    have hv : validatePhotoPayload cfg (some p) = some VErr.unsupportedImageFormat := by
      rw [validate_str cfg p pid uri hid hp hne, hpre]
      simp
    exact submit_badRequest_of_validate cfg s (some p) now rho wok _ hb hv
  · intro cfg s p now rho wok pid uri hb hid hp hne hpre hsz hd
    exact submit_malformed cfg s p now rho wok uri pid hb hid hp hne hpre (by omega) hd
  · intro cfg s p now rho wok pid uri hb hid hp hne hpre hsz
    have hv : validatePhotoPayload cfg (some p) = some VErr.exceedsLimit := by
      rw [validate_str cfg p pid uri hid hp hne, hpre]
      simp [hsz]
    exact submit_badRequest_of_validate cfg s (some p) now rho wok _ hb hv
  · intro cfg s p now rho wok pid mime B hb hid hp hpre hmne hmc hmNL hB hBne hsize
    have hBc : ',' ∉ B := by
      intro hc
      have := hB ',' hc
      simp [isB64] at this
    have hdec := decode_well_formed mime B hmne hmc hmNL hB hBne
    have happrox := approx_well_formed mime B hmc hBc
    have hne : ("data:".toList ++ mime ++ b64marker ++ B) ≠ [] := by
      rw [show "data:".toList = ['d', 'a', 't', 'a', ':'] from rfl]
      simp
    have hgt : approxBytesFromDataUri ("data:".toList ++ mime ++ b64marker ++ B)
        > cfg.maxImageBytes := by
      rw [happrox]
      have h34 : 3 * B.length / 4 ≤ (3 * B.length + 3) / 4 :=
        Nat.div_le_div_right (by omega)
      omega
    refine ⟨hdec, ?_⟩
    have hv : validatePhotoPayload cfg (some p) = some VErr.exceedsLimit := by
      rw [validate_str cfg p pid _ hid hp hne, hpre, if_pos rfl, if_pos hgt]
    exact submit_badRequest_of_validate cfg s (some p) now rho wok _ hb hv

/-- Witness for the amended C7: a well-formed sixteen-character PNG data
URI (twelve decoded bytes) against an eight-byte cap is rejected. -/
theorem claim7_witness :
    decodeBase64Image ("data:".toList ++ "image/png".toList ++ b64marker
        ++ "AAAAAAAAAAAAAAAA".toList)
      = some ("image/png".toList, 3 * ("AAAAAAAAAAAAAAAA".toList).length / 4) ∧
    submitPhoto cfgSmall sEmpty (some
        { rawA with images := JImages.arr [JPrim.str ("data:".toList ++ "image/png".toList
            ++ b64marker ++ "AAAAAAAAAAAAAAAA".toList)] }) 0 0 true
      = ⟨SResult.badRequest VErr.exceedsLimit,
         ⟨sEmpty.photos, sEmpty.activeUploads, sEmpty.save⟩, [], []⟩ :=
  claim7_amended.2.2.2.2 cfgSmall sEmpty
    { rawA with images := JImages.arr [JPrim.str ("data:".toList ++ "image/png".toList
        ++ b64marker ++ "AAAAAAAAAAAAAAAA".toList)] }
    0 0 true ['a'] "image/png".toList "AAAAAAAAAAAAAAAA".toList
    (by decide) rfl rfl (by decide) (by decide) (by decide) (by decide) (by decide)
    (by decide) (by decide)
